import Mathlib

set_option autoImplicit false

/-!
Shallow embedding of `src/leaflow.py` (LeafLow check-in automation script).

Modelling conventions:
* Python strings are modelled as Lean `String` / `List Char`.
* The fixed regular expressions of `extract_reward` are embedded as values of
  a small regex language `RE` together with a backtracking matcher that follows
  Python `re` semantics for exactly the constructs those patterns use:
  leftmost search, ordered alternation, greedy repetition over a character
  class, and numbered capturing groups.
* Python's Unicode-aware `\d`, `\s`, `str.lower`, `str.strip` are modelled on
  their ASCII parts; the repository's keyword sets are ASCII or CJK, where the
  two agree.
* The HTTP layer is modelled as an oracle `Net : Req → Except String HttpResponse`;
  a `.error e` models `requests.exceptions.RequestException` with text `e`.
  `perform_checkin` additionally returns the list of requests it issued, so that
  "no POST was sent" is expressible.
-/

namespace LeafLow

/-- Capture environment: group index paired with the captured characters. -/
abbrev Caps := List (Nat × List Char)

/-- Regex abstract syntax covering the constructs used by `extract_reward`:
single-character classes, concatenation, ordered alternation, greedy star over
a character class, and numbered capturing groups. -/
inductive RE where
  | eps : RE
  | cls : (Char → Bool) → RE
  | cat : RE → RE → RE
  | alt : RE → RE → RE
  | starCls : (Char → Bool) → RE
  | grp : Nat → RE → RE

/-- Greedy backtracking over the length of a character-class run: try
consuming `n` characters first, then fewer, as Python's greedy `*` does. -/
def tryLens (k : List Char → Caps → Option Caps) (s : List Char) (caps : Caps) :
    Nat → Option Caps
  | 0 => k s caps
  | n + 1 =>
    match k (s.drop (n + 1)) caps with
    | some r => some r
    | none => tryLens k s caps n

/-- CPS backtracking matcher. `mRE r s k caps` tries to match `r` at the head
of `s`; on success the continuation `k` receives the remaining input and the
captures recorded so far. Alternation prefers its left branch and star is
greedy, as in Python `re`. -/
def mRE : RE → List Char → (List Char → Caps → Option Caps) → Caps → Option Caps
  | .eps, s, k, caps => k s caps
  | .cls _, [], _, _ => none
  | .cls p, c :: rest, k, caps => if p c then k rest caps else none
  | .cat a b, s, k, caps => mRE a s (fun s2 caps2 => mRE b s2 k caps2) caps
  | .alt a b, s, k, caps =>
    match mRE a s k caps with
    | some r => some r
    | none => mRE b s k caps
  | .starCls p, s, k, caps => tryLens k s caps (s.takeWhile p).length
  | .grp i r, s, k, caps =>
    mRE r s (fun s2 caps2 => k s2 ((i, s.take (s.length - s2.length)) :: caps2)) caps

/-- Python `re.search`: try to match at each position, leftmost first; on
success return the recorded captures. -/
def reSearch (r : RE) (s : List Char) : Option Caps :=
  match mRE r s (fun _ caps => some caps) [] with
  | some caps => some caps
  | none =>
    match s with
    | [] => none
    | _ :: rest => reSearch r rest

/-- A single literal character. -/
def lit1 (c : Char) : RE := .cls (fun d => d == c)

/-- Case-insensitive single character (Python `re.IGNORECASE`, ASCII case). -/
def litCI1 (c : Char) : RE := .cls (fun d => d.toLower == c.toLower)

/-- A literal string. -/
def litStr (s : List Char) : RE := s.foldr (fun c r => .cat (lit1 c) r) .eps

/-- A literal string, case-insensitively. -/
def litStrCI (s : List Char) : RE := s.foldr (fun c r => .cat (litCI1 c) r) .eps

/-- Sequence of regexes. -/
def seqRE (rs : List RE) : RE := rs.foldr .cat .eps

/-- Ordered alternation of a list of regexes (left alternative preferred). -/
def altRE : List RE → RE
  | [] => .cls (fun _ => false)
  | [r] => r
  | r :: rs => .alt r (altRE rs)

/-- Greedy `?`. -/
def optRE (r : RE) : RE := .alt r .eps

/-- Greedy `+` over a character class. -/
def plusCls (p : Char → Bool) : RE := .cat (.cls p) (.starCls p)

/-- Number of capturing groups declared in a pattern; Python's
`match.groups()` has exactly this length after any successful match of the
patterns below (all their groups are on the mandatory path). -/
def countGroups : RE → Nat
  | .eps => 0
  | .cls _ => 0
  | .cat a b => countGroups a + countGroups b
  | .alt a b => countGroups a + countGroups b
  | .starCls _ => 0
  | .grp _ r => countGroups r + 1

/-- The digit class (ASCII part of Python's backslash-d). -/
def pyDigit (c : Char) : Bool := 48 ≤ c.toNat && c.toNat ≤ 57

/-- The whitespace class (ASCII part of Python's backslash-s): space, tab,
newline, carriage return, vertical tab, form feed. -/
def pySpace (c : Char) : Bool :=
  c == ' ' || c == Char.ofNat 9 || c == Char.ofNat 10 || c == Char.ofNat 13 ||
  c == Char.ofNat 11 || c == Char.ofNat 12

/-- The class written as backslash-d or dot in the structural pattern. -/
def amountChar (c : Char) : Bool := pyDigit c || c == '.'

/-- The negated class excluding a closing angle bracket. -/
def nonGtChar (c : Char) : Bool := !(c == '>')

/-- The negated class excluding an opening angle bracket and whitespace. -/
def structUnitChar (c : Char) : Bool := !(c == '<') && !(pySpace c)

/-- ASCII letters or the CJK range U+4E00 to U+9FA5. -/
def wordCJKChar (c : Char) : Bool :=
  (97 ≤ c.toNat && c.toNat ≤ 122) || (65 ≤ c.toNat && c.toNat ≤ 90) ||
  (0x4e00 ≤ c.toNat && c.toNat ≤ 0x9fa5)

/-- The decimal-number subpattern of the fuzzy stages: one or more digits, an
optional dot, then any digits. -/
def numberRE : RE := seqRE [plusCls pyDigit, optRE (lit1 '.'), .starCls pyDigit]

/-- The structural pattern of `extract_reward`: the literal attribute text
`class="reward-amount"`, any run without a closing angle bracket, the bracket,
then (amount, unit) captures separated by whitespace and terminated by the
next opening angle bracket. -/
def structurePattern : RE :=
  seqRE [litStr ("class=\"reward-amount\"".toList),
         .starCls nonGtChar, lit1 '>',
         .starCls pySpace, .grp 1 (plusCls amountChar),
         .starCls pySpace, .grp 2 (plusCls structUnitChar),
         .starCls pySpace, lit1 '<']

/-- Fuzzy pattern (a): a CJK reward verb, whitespace, amount, whitespace, a
unit of ASCII letters or CJK characters. -/
def patternA : RE :=
  seqRE [altRE [litStr "获得".toList, litStr "奖励".toList,
                .cat (litStr "领取".toList) (optRE (lit1 '了'))],
         .starCls pySpace, .grp 1 numberRE,
         .starCls pySpace, .grp 2 (plusCls wordCJKChar)]

/-- Fuzzy pattern (b): case-insensitive `earned`, amount, `credits?` or
`points?` (unit captured). -/
def patternB : RE :=
  seqRE [litStrCI "earned".toList,
         .starCls pySpace, .grp 1 numberRE,
         .starCls pySpace,
         .grp 2 (altRE [.cat (litStrCI "credit".toList) (optRE (litCI1 's')),
                        .cat (litStrCI "point".toList) (optRE (litCI1 's'))])]

/-- Fuzzy pattern (c): case-insensitive `got`, amount, `credits?` or
`points?` (unit captured). -/
def patternC : RE :=
  seqRE [litStrCI "got".toList,
         .starCls pySpace, .grp 1 numberRE,
         .starCls pySpace,
         .grp 2 (altRE [.cat (litStrCI "credit".toList) (optRE (litCI1 's')),
                        .cat (litStrCI "point".toList) (optRE (litCI1 's'))])]

/-- Fuzzy pattern (d): a bare amount followed by a unit word from the fixed
vocabulary; note the unit alternation is non-capturing in the source, so this
pattern declares exactly one capturing group. -/
def patternD : RE :=
  seqRE [.grp 1 numberRE, .starCls pySpace,
         altRE [litStrCI "points".toList, litStrCI "credits".toList,
                litStr "积分".toList, litStr "硬币".toList, litStr "元".toList]]

/-- The ordered fuzzy-stage pattern list of `extract_reward`. -/
def text_patterns : List RE := [patternA, patternB, patternC, patternD]

/-- The characters stripped from a fuzzy unit token: both angle brackets, the
double quote, the single quote, comma, dot, and space. -/
def stripSet : List Char := ['<', '>', Char.ofNat 34, Char.ofNat 39, ',', '.', ' ']

/-- Python two-sided `strip` over `stripSet`. -/
def stripChars (l : List Char) : List Char :=
  ((l.dropWhile (fun c => stripSet.contains c)).reverse.dropWhile
    (fun c => stripSet.contains c)).reverse

/-- The value of capturing group `i` after a successful match. -/
def getGroup (caps : Caps) (i : Nat) : List Char :=
  match caps.find? (fun p => p.1 == i) with
  | some p => p.2
  | none => []

/-- One iteration of the fuzzy-text loop of `extract_reward`: search the
pattern, require exactly two capturing groups, strip the unit, and accept only
units of length at most 9. -/
def tryTextPattern (p : RE) (html : List Char) : Option (List Char × List Char) :=
  match reSearch p html with
  | none => none
  | some caps =>
    if countGroups p == 2 then
      let unit := stripChars (getGroup caps 2)
      if unit.length < 10 then some (getGroup caps 1, unit) else none
    else none

/-- The fuzzy-stage loop: first pattern whose iteration returns a pair wins. -/
def textLoop : List RE → List Char → Option (List Char × List Char)
  | [], _ => none
  | p :: ps, html =>
    match tryTextPattern p html with
    | some r => some r
    | none => textLoop ps html

/-- The structural stage of `extract_reward`: group 1 and group 2 of the
structural pattern are returned verbatim, with no stripping and no length
check. -/
def structExtract (html : List Char) : Option (String × String) :=
  match reSearch structurePattern html with
  | some caps => some (String.mk (getGroup caps 1), String.mk (getGroup caps 2))
  | none => none

/-- The extractor `LeafLowCheckin.extract_reward`: structural stage first, then the fuzzy
patterns in order. -/
def extract_reward (html : String) : Option (String × String) :=
  match structExtract html.toList with
  | some r => some r
  | none =>
    match textLoop text_patterns html.toList with
    | some (a, u) => some (String.mk a, String.mk u)
    | none => none

/-- An HTTP response as `requests` presents it: status code, final URL after
redirects, body text. -/
structure HttpResponse where
  status : Nat
  url : String
  text : String
deriving DecidableEq

/-- A request issued through a session: a GET of a URL, or a POST of a URL
with form data. -/
inductive Req where
  | get : String → Req
  | post : String → List (String × String) → Req
deriving DecidableEq

/-- The network oracle standing for a configured `requests.Session`: each
request either yields a response or raises a transport error with a message. -/
abbrev Net := Req → Except String HttpResponse

/-- ASCII lowering of a string to a character list, modelling `str.lower()`
composed with iteration. -/
def lowerL (s : String) : List Char := s.toList.map Char.toLower

/-- Whether `needle` is a prefix of `hay`. -/
def prefixOfL : List Char → List Char → Bool
  | [], _ => true
  | _ :: _, [] => false
  | a :: as, b :: bs => a == b && prefixOfL as bs

/-- Whether `needle` occurs as a contiguous substring of `hay` (Python's
`needle in hay`). -/
def containsSub (hay needle : List Char) : Bool :=
  match hay with
  | [] => prefixOfL needle []
  | _ :: rest => prefixOfL needle hay || containsSub rest needle

def checkin_url : String := "https://checkin.leaflow.net"

def main_site : String := "https://leaflow.net"

/-- The three authenticated-only probe URLs, in order. -/
def test_urls : List String :=
  [main_site ++ "/dashboard", main_site ++ "/user", main_site ++ "/profile"]

/-- The keywords whose presence in a lowercased 200 body counts as an
authenticated view. -/
def auth_keywords : List String := ["dashboard", "logout", "profile", "user"]

/-- The positive probe test: status 200 and some keyword in the lowercased
body. -/
def authSuccessCheck (r : HttpResponse) : Bool :=
  r.status == 200 && auth_keywords.any (fun kw => containsSub (lowerL r.text) kw.toList)

/-- The negative probe test: `login` occurs in the lowercased final URL. -/
def loginRedirectCheck (r : HttpResponse) : Bool :=
  containsSub (lowerL r.url) ("login".toList)

/-- The message returned when all probes are exhausted. -/
def authExhaustedMsg : String :=
  "认证失败，尝试了 " ++ toString test_urls.length ++ " 个页面均无法确认登录状态。"

/-- The message returned on a login redirect. -/
def loginRedirectMsg : String := "认证失败，Cookie 已失效，被重定向到登录页。"

/-- The probe loop of `test_authentication`: for each URL in order, a transport
error aborts the whole probe; a 200 body with a keyword wins; a final URL
containing `login` loses; otherwise the next URL is tried. -/
def authLoop (net : Net) : List String → Bool × String
  | [] => (false, authExhaustedMsg)
  | u :: rest =>
    match net (Req.get u) with
    | .error e => (false, "测试认证时发生网络错误: " ++ e)
    | .ok r =>
      if authSuccessCheck r then (true, "认证成功")
      else if loginRedirectCheck r then (false, loginRedirectMsg)
      else authLoop net rest

/-- The verifier `LeafLowCheckin.test_authentication`. -/
def test_authentication (net : Net) : Bool × String := authLoop net test_urls

/-- Indicators that today's check-in already happened, looked for in the
lowercased GET body. -/
def alreadyIndicators : List String := ["already checked in", "今日已签到"]

/-- Indicators of a successful check-in, looked for in the lowercased POST
body. -/
def success_indicators : List String :=
  ["check-in successful", "checkin successful", "签到成功", "success", "已签到"]

/-- The check-in POST request, with its single form field. -/
def checkinPostReq : Req := Req.post checkin_url [("checkin", "1")]

/-- The already-checked-in message, combining any extracted reward. -/
def rewardMsgAlready : Option (String × String) → String
  | some (a, u) => "今天已经签到过了。今日奖励: " ++ a ++ " " ++ u ++ "。"
  | none => "今天已经签到过了。(未能从页面获取今日奖励信息)"

/-- The fresh-check-in success message, combining any extracted reward. -/
def rewardMsgSuccess : Option (String × String) → String
  | some (a, u) => "签到成功！获得了 " ++ a ++ " " ++ u ++ "。"
  | none => "签到成功！(未能从返回信息中提取具体奖励)"

/-- Whether some indicator of the list occurs in the lowercased body. -/
def bodyHas (inds : List String) (body : String) : Bool :=
  inds.any (fun ind => containsSub (lowerL body) ind.toList)

/-- The orchestrator `LeafLowCheckin.perform_checkin`, also returning the list of requests it
issued. A transport error on either request yields the network-error failure
message of the shared exception handler. -/
def perform_checkin (net : Net) : (Bool × String) × List Req :=
  match net (Req.get checkin_url) with
  | .error e => ((false, "签到过程中发生网络错误: " ++ e), [Req.get checkin_url])
  | .ok rg =>
    if rg.status ≠ 200 then
      ((false, "访问签到页失败，状态码: " ++ toString rg.status), [Req.get checkin_url])
    else
      let reward_info := extract_reward rg.text
      if bodyHas alreadyIndicators rg.text then
        ((true, rewardMsgAlready reward_info), [Req.get checkin_url])
      else
        match net checkinPostReq with
        | .error e =>
          ((false, "签到过程中发生网络错误: " ++ e), [Req.get checkin_url, checkinPostReq])
        | .ok rp =>
          if rp.status == 200 then
            if bodyHas success_indicators rp.text then
              ((true, rewardMsgSuccess (extract_reward rp.text)),
               [Req.get checkin_url, checkinPostReq])
            else
              ((false, "签到请求已发送，但响应中未找到成功标识。"),
               [Req.get checkin_url, checkinPostReq])
          else
            ((false, "签到 POST 请求失败，状态码: " ++ toString rp.status),
             [Req.get checkin_url, checkinPostReq])

/-- Hex digit value, both cases, as accepted by percent escapes. -/
def hexVal (c : Char) : Option Nat :=
  if 48 ≤ c.toNat && c.toNat ≤ 57 then some (c.toNat - 48)
  else if 97 ≤ c.toNat && c.toNat ≤ 102 then some (c.toNat - 87)
  else if 65 ≤ c.toNat && c.toNat ≤ 70 then some (c.toNat - 55)
  else none

/-- The maximal run of percent escapes at the head of the input, as bytes,
with the rest of the input. -/
def pctRun : List Char → List Nat × List Char
  | '%' :: h1 :: h2 :: rest =>
    match hexVal h1, hexVal h2 with
    | some a, some b =>
      let (bs, r) := pctRun rest
      ((16 * a + b) :: bs, r)
    | _, _ => ([], '%' :: h1 :: h2 :: rest)
  | l => ([], l)

/-- The Unicode replacement character emitted for undecodable bytes. -/
def replChar : Char := Char.ofNat 0xfffd

/-- Whether a byte is a UTF-8 continuation byte. -/
def isCont (b : Nat) : Bool := 128 ≤ b && b < 192

/-- UTF-8 decoding of a byte list with replacement on error, fuelled by the
list length (each step consumes at least one byte, so `utf8Decode` below is
exact). On an invalid sequence one byte is consumed and a replacement
character emitted. -/
def utf8DecodeFuel : Nat → List Nat → List Char
  | 0, _ => []
  | _, [] => []
  | fuel + 1, b :: rest =>
    if b < 128 then Char.ofNat b :: utf8DecodeFuel fuel rest
    else if 194 ≤ b && b ≤ 223 then
      match rest with
      | b2 :: rest2 =>
        if isCont b2 then
          Char.ofNat ((b - 192) * 64 + (b2 - 128)) :: utf8DecodeFuel fuel rest2
        else replChar :: utf8DecodeFuel fuel rest
      | [] => [replChar]
    else if 224 ≤ b && b ≤ 239 then
      match rest with
      | b2 :: b3 :: rest3 =>
        if (if b == 224 then 160 ≤ b2 && b2 < 192
            else if b == 237 then 128 ≤ b2 && b2 < 160
            else isCont b2) && isCont b3 then
          Char.ofNat ((b - 224) * 4096 + (b2 - 128) * 64 + (b3 - 128)) ::
            utf8DecodeFuel fuel rest3
        else replChar :: utf8DecodeFuel fuel rest
      | _ => replChar :: utf8DecodeFuel fuel rest
    else if 240 ≤ b && b ≤ 244 then
      match rest with
      | b2 :: b3 :: b4 :: rest4 =>
        if (if b == 240 then 144 ≤ b2 && b2 < 192
            else if b == 244 then 128 ≤ b2 && b2 < 144
            else isCont b2) && isCont b3 && isCont b4 then
          Char.ofNat ((b - 240) * 262144 + (b2 - 128) * 4096 + (b3 - 128) * 64 +
              (b4 - 128)) :: utf8DecodeFuel fuel rest4
        else replChar :: utf8DecodeFuel fuel rest
      | _ => replChar :: utf8DecodeFuel fuel rest
    else replChar :: utf8DecodeFuel fuel rest

/-- UTF-8 decoding of a byte list with replacement on error. -/
def utf8Decode (l : List Nat) : List Char := utf8DecodeFuel l.length l

/-- Percent decoding (`urllib.parse.unquote`) on a character list, fuelled by the length (each
step consumes at least one character, so `unquote` below is exact): maximal
runs of percent escapes are decoded as UTF-8 byte sequences, everything else
passes through, and a percent sign not starting a valid escape is literal. -/
def unquoteFuel : Nat → List Char → List Char
  | 0, _ => []
  | _, [] => []
  | fuel + 1, c :: rest =>
    if c == '%' then
      match pctRun (c :: rest) with
      | ([], _) => c :: unquoteFuel fuel rest
      | (bs, r) => utf8Decode bs ++ unquoteFuel fuel r
    else c :: unquoteFuel fuel rest

/-- Percent decoding, `urllib.parse.unquote`. -/
def unquote (l : List Char) : List Char := unquoteFuel l.length l

/-- Python `str.strip()` with no argument (ASCII whitespace part). -/
def trimWs (l : List Char) : List Char :=
  ((l.dropWhile pySpace).reverse.dropWhile pySpace).reverse

/-- Split on a separator character, Python `str.split(sep)` semantics. -/
def splitOnChar (sep : Char) : List Char → List (List Char)
  | [] => [[]]
  | c :: rest =>
    let r := splitOnChar sep rest
    if c == sep then [] :: r
    else
      match r with
      | [] => [[c]]
      | h :: t => (c :: h) :: t

/-- Split a segment at its first equals sign (Python `split("=", 1)` when the
sign is known to occur). -/
def splitFirstEq : List Char → List Char × List Char
  | [] => ([], [])
  | c :: rest =>
    if c == '=' then ([], rest)
    else
      let (n, v) := splitFirstEq rest
      (c :: n, v)

/-- Insert into the cookie mapping with Python `dict` semantics: an existing
name keeps its position and gets the new value, a new name is appended. -/
def upsert (m : List (String × String)) (k v : String) : List (String × String) :=
  match m with
  | [] => [(k, v)]
  | (k0, v0) :: rest => if k0 == k then (k0, v) :: rest else (k0, v0) :: upsert rest k v

/-- The cookie parser `LeafLowCheckin.parse_cookie_string`: split on semicolons, trim each
segment, keep only segments containing an equals sign, split those at the
first equals sign, trim the name, trim then percent-decode the value. -/
def parse_cookie_string (cookie_string : String) : List (String × String) :=
  (splitOnChar ';' cookie_string.toList).foldl
    (fun acc seg =>
      let cookie := trimWs seg
      if cookie.contains '=' then
        let (n, v) := splitFirstEq cookie
        upsert acc (String.mk (trimWs n)) (String.mk (unquote (trimWs v)))
      else acc)
    []

/-- One per-account result record. -/
structure AccountResult where
  account : String
  success : Bool
  message : String
deriving DecidableEq

/-- The per-account body of `LeafLowCheckin.run`: parse the cookie string
(empty mapping is a format error), then authenticate, then check in. -/
def processAccount (net : Net) (cookie_string account_name : String) : AccountResult :=
  let cookies_dict := parse_cookie_string cookie_string
  if cookies_dict.isEmpty then ⟨account_name, false, "Cookie格式错误"⟩
  else
    let (auth_success, auth_message) := test_authentication net
    if !auth_success then ⟨account_name, false, auth_message⟩
    else
      let ((s, m), _) := perform_checkin net
      ⟨account_name, s, m⟩

/-- The driver `LeafLowCheckin.run`: with no entries (or an empty first entry) a single
placeholder result is recorded; otherwise one result per entry, in order, the
account label carrying the 1-based index. -/
def run (net : Nat → Net) (cookies_list : List String) : List AccountResult :=
  if cookies_list.isEmpty || cookies_list.headD "" == "" then
    [⟨"N/A", false, "未配置Cookie"⟩]
  else
    (List.range cookies_list.length).map
      (fun i => processAccount (net i) (cookies_list.getD i "") ("账号" ++ toString (i + 1)))

/-- The reporter `LeafLowCheckin.generate_report`: title with success and total counts,
body with a header line then one line per result. -/
def generate_report (results : List AccountResult) : String × String :=
  let success_count := (results.filter (fun r => r.success)).length
  let total_count := results.length
  let title := "LeafLow 签到报告 (" ++ toString success_count ++ "/" ++
    toString total_count ++ ")"
  let content_lines :=
    ("签到任务完成，总计 " ++ toString total_count ++ " 个账号，成功 " ++
      toString success_count ++ " 个。\n") ::
    results.map (fun r =>
      (if r.success then "✅" else "❌") ++ " " ++ r.account ++ ": " ++ r.message)
  (title, String.intercalate "\n" content_lines)

/-- The credential splitting of `main` before filtering: split on ampersands
if any, else on newlines if any, else a single entry; trim every entry. -/
def rawCookiesList (cookies_env : String) : List String :=
  if cookies_env.toList.contains '&' then
    (splitOnChar '&' cookies_env.toList).map (fun c => String.mk (trimWs c))
  else if cookies_env.toList.contains (Char.ofNat 10) then
    (splitOnChar (Char.ofNat 10) cookies_env.toList).map (fun c => String.mk (trimWs c))
  else [String.mk (trimWs cookies_env.toList)]

/-- The credential list of `main`: the split entries with the empty ones
discarded. -/
def mainCookiesList (cookies_env : String) : List String :=
  (rawCookiesList cookies_env).filter (fun c => !(c == ""))

example : extract_reward "You got 10 points today" = some ("10", "points") := by decide

example : extract_reward "5 points" = none := by decide

example : extract_reward "class=\"reward-amount\">0.07 元<" = some ("0.07", "元") := by decide

example : extract_reward "plain text with no reward" = none := by decide

example : parse_cookie_string "a=1; b=2" = [("a", "1"), ("b", "2")] := by decide

example : parse_cookie_string "a=hello%20world" = [("a", "hello world")] := by decide

example : parse_cookie_string "u=%E5%85%83" = [("u", "元")] := by decide

example : mainCookiesList "a=1&b=2 " = ["a=1", "b=2"] := by decide

example : mainCookiesList "&" = [] := by decide

/-- The HTML of the Reward Extractor priority example: a `reward-amount`
element holding `0.07 元` and, separately, the prose `earned 5 credits`. -/
def c4Html : String := "class=\"reward-amount\">0.07 元<p>earned 5 credits</p>"

/-- HTML whose structural unit token is twelve characters long, including two
double quotes that the fuzzy stage would have stripped. -/
def c10Html : String := "class=\"reward-amount\">5 \"abcdefghij\"<"

/-- Helper: the probe loop declares a login-redirect failure for the first
probe response that neither satisfies the success test nor errors, provided
every earlier probe returned a response failing both tests. -/
theorem authLoop_login (net : Net) (us vs : List String) (u : String) (r : HttpResponse)
    (hreach : ∀ v ∈ us, ∃ rv, net (Req.get v) = Except.ok rv ∧
      authSuccessCheck rv = false ∧ loginRedirectCheck rv = false)
    (hr : net (Req.get u) = Except.ok r)
    (hnosucc : authSuccessCheck r = false)
    (hlogin : loginRedirectCheck r = true) :
    authLoop net (us ++ u :: vs) = (false, loginRedirectMsg) := by
  induction us with
  | nil => simp [authLoop, hr, hnosucc, hlogin]
  | cons v us ih =>
    obtain ⟨rv, hrv, h1, h2⟩ := hreach v (by simp)
    have := ih (fun w hw => hreach w (by simp [hw]))
    simpa [authLoop, hrv, h1, h2] using this

/-- Helper: the probe loop surfaces a transport error raised by the first
probe that is reached after a run of responses failing both tests, whatever
its position in the URL list. -/
theorem authLoop_error (net : Net) (us vs : List String) (u : String) (e : String)
    (hreach : ∀ v ∈ us, ∃ rv, net (Req.get v) = Except.ok rv ∧
      authSuccessCheck rv = false ∧ loginRedirectCheck rv = false)
    (herr : net (Req.get u) = Except.error e) :
    authLoop net (us ++ u :: vs) = (false, "测试认证时发生网络错误: " ++ e) := by
  induction us with
  | nil => simp [authLoop, herr]
  | cons v us ih =>
    obtain ⟨rv, hrv, h1, h2⟩ := hreach v (by simp)
    have := ih (fun w hw => hreach w (by simp [hw]))
    simpa [authLoop, hrv, h1, h2] using this

/-- Helper: with a non-empty entry list whose head is non-blank, `run`
produces exactly the in-order map of `processAccount` over the entries. -/
theorem run_nonempty (net : Nat → Net) (cl : List String) (h1 : cl ≠ [])
    (h2 : ∀ c ∈ cl, c ≠ "") :
    run net cl = (List.range cl.length).map
      (fun i => processAccount (net i) (cl.getD i "") ("账号" ++ toString (i + 1))) := by
  match cl, h1 with
  | c :: t, _ =>
    have hc : c ≠ "" := h2 c (by simp)
    simp [run, hc]

/-- Helper: indexing the map of a function over `List.range`. -/
theorem getD_range_map {α : Type} (f : Nat → α) (n i : Nat) (d : α) (hi : i < n) :
    ((List.range n).map f).getD i d = f i := by
  simp [List.getD, List.getElem?_map, List.getElem?_range, hi]

/-- C1 as stated is false: a probe response whose final URL contains `login`
but whose 200 body contains an authenticated-view keyword is declared a
success, so the outcome does depend on the body content. -/
theorem C1_counterexample :
    test_authentication
        (fun _ => Except.ok ⟨200, "https://leaflow.net/login", "dashboard"⟩) =
      (true, "认证成功") ∧
    loginRedirectCheck ⟨200, "https://leaflow.net/login", "dashboard"⟩ = true := by
  decide

/-- C1 amended: for every probe response that is reached and does not satisfy
the success test (status 200 with an authenticated keyword in the body), a
final URL containing `login` case-insensitively makes the verifier declare
failure with the redirected-to-login message, regardless of the rest of the
body. -/
theorem C1_login_redirect (net : Net) (us vs : List String) (u : String) (r : HttpResponse)
    (hurls : test_urls = us ++ u :: vs)
    (hreach : ∀ v ∈ us, ∃ rv, net (Req.get v) = Except.ok rv ∧
      authSuccessCheck rv = false ∧ loginRedirectCheck rv = false)
    (hr : net (Req.get u) = Except.ok r)
    (hnosucc : authSuccessCheck r = false)
    (hlogin : loginRedirectCheck r = true) :
    test_authentication net = (false, loginRedirectMsg) := by
  rw [test_authentication, hurls]
  exact authLoop_login net us vs u r hreach hr hnosucc hlogin

/-- Witness for the amended C1 at a concrete network. -/
theorem C1_witness :
    test_authentication
        (fun _ => Except.ok ⟨200, "https://leaflow.net/login", "<html>"⟩) =
      (false, loginRedirectMsg) :=
  C1_login_redirect _ [] [main_site ++ "/user", main_site ++ "/profile"]
    (main_site ++ "/dashboard") ⟨200, "https://leaflow.net/login", "<html>"⟩
    rfl (by intro v hv; simp at hv) rfl (by decide) (by decide)

/-- C2 as stated fails on the code: on `5 points` no higher-priority stage
matches and the bare-number pattern does match, yet the extractor returns
`none`, because that pattern declares a single capturing group (its unit
alternation is non-capturing) and the loop demands exactly two. -/
theorem C2_bare_number_unit :
    extract_reward "5 points" = none ∧
    (reSearch patternD ("5 points".toList)).isSome = true ∧
    countGroups patternD = 1 := by decide

/-- C4: whenever the structural stage matches, the extractor returns the
structural pair and ignores the fuzzy stages entirely; in particular, on HTML
holding both a `reward-amount` element with `0.07 元` and the prose
`earned 5 credits`, it returns the structural pair. -/
theorem C4_structural_priority (html : String) (a u : String)
    (hs : structExtract html.toList = some (a, u))
    (_hf : textLoop text_patterns html.toList ≠ none) :
    extract_reward html = some (a, u) ∧
    extract_reward c4Html = some ("0.07", "元") := by
  constructor
  · unfold extract_reward
    rw [hs]
  · decide

/-- Witness for C4 at the specified example HTML. -/
theorem C4_witness : extract_reward c4Html = some ("0.07", "元") :=
  (C4_structural_priority c4Html "0.07" "元" (by decide) (by decide)).2

/-- C9: the cookie parser splits on semicolons, trims, splits each segment at
its first equals sign, discards segments without one, percent-decodes the
value, and keeps the last occurrence of a duplicated name. -/
theorem C9_cookie_parsing :
    parse_cookie_string "a=1; b=2" = [("a", "1"), ("b", "2")] ∧
    parse_cookie_string "a=1;b=2;garbage" = [("a", "1"), ("b", "2")] ∧
    parse_cookie_string "a=hello%20world" = [("a", "hello world")] ∧
    parse_cookie_string "a=1; a=2" = [("a", "2")] := by decide

/-- C10: a structural match is returned verbatim: no stripping and no length
bound is applied to its unit, while the fuzzy stripping would have altered the
twelve-character quoted unit of the example. -/
theorem C10_structural_verbatim (html : String) (a u : String)
    (hs : structExtract html.toList = some (a, u)) :
    extract_reward html = some (a, u) ∧
    stripChars ("\"abcdefghij\"".toList) ≠ "\"abcdefghij\"".toList ∧
    extract_reward c10Html = some ("5", "\"abcdefghij\"") := by
  refine ⟨?_, by decide, by decide⟩
  unfold extract_reward
  rw [hs]

/-- Witness for C10 at HTML with a long, quote-wrapped structural unit. -/
theorem C10_witness : extract_reward c10Html = some ("5", "\"abcdefghij\"") :=
  (C10_structural_verbatim c10Html "5" "\"abcdefghij\"" (by decide)).2.2

/-- C3 as stated is false: an input that splits into only empty entries (so
zero non-empty trimmed entries) still produces one Account Result, the
placeholder record. -/
theorem C3_counterexample :
    mainCookiesList "&" = ([] : List String) ∧
    (run (fun _ _ => Except.error "e") (mainCookiesList "&")).length = 1 := by
  decide

/-- C3 amended: when at least one entry is non-empty after splitting and
trimming, the number of Account Results equals the number of entries and the
i-th result is the processing of the i-th entry under the i-th account label;
when no entry is non-empty, a single placeholder `N/A` failure result is
produced instead. -/
theorem C3_result_count (env : String) (net : Nat → Net) :
    (mainCookiesList env ≠ [] →
      (run net (mainCookiesList env)).length = (mainCookiesList env).length ∧
      ∀ i, i < (mainCookiesList env).length →
        (run net (mainCookiesList env)).getD i ⟨"N/A", false, ""⟩ =
          processAccount (net i) ((mainCookiesList env).getD i "")
            ("账号" ++ toString (i + 1))) ∧
    (mainCookiesList env = [] →
      run net (mainCookiesList env) = [⟨"N/A", false, "未配置Cookie"⟩]) := by
  constructor
  · intro h
    have hne : ∀ c ∈ mainCookiesList env, c ≠ "" := by
      intro c hc
      have := (List.mem_filter.mp hc).2
      simpa using this
    refine ⟨?_, ?_⟩
    · rw [run_nonempty net _ h hne]
      simp
    · intro i hi
      rw [run_nonempty net _ h hne, getD_range_map _ _ i _ hi]
  · intro h
    rw [h]
    rfl

/-- Witness for the amended C3 at a concrete environment value. -/
theorem C3_witness :
    (run (fun _ _ => Except.error "x") (mainCookiesList "a=1")).length =
      (mainCookiesList "a=1").length :=
  ((C3_result_count "a=1" (fun _ _ => Except.error "x")).1 (by decide)).1

/-- C5: when the check-in page GET returns status 200 and its body carries an
already-checked-in indicator, the orchestrator issues only that GET (no POST)
and returns success with the already-checked-in message built from the
extracted reward, or from its absence. -/
theorem C5_already_no_post (net : Net) (r : HttpResponse)
    (hget : net (Req.get checkin_url) = Except.ok r)
    (hstatus : r.status = 200)
    (halready : bodyHas alreadyIndicators r.text = true) :
    perform_checkin net =
      ((true, rewardMsgAlready (extract_reward r.text)), [Req.get checkin_url]) := by
  unfold perform_checkin
  rw [hget]
  simp [hstatus, halready]

/-- Witness for C5: on a 200 page saying `already checked in` with no reward
text, only the GET is issued and the extraction-failure variant is returned. -/
theorem C5_witness :
    perform_checkin (fun _ => Except.ok ⟨200, "", "already checked in"⟩) =
      ((true, "今天已经签到过了。(未能从页面获取今日奖励信息)"), [Req.get checkin_url]) :=
  (C5_already_no_post _ ⟨200, "", "already checked in"⟩ rfl rfl (by decide)).trans
    (by decide)

/-- C6: for a fuzzy pattern with exactly two capturing groups, a successful
search yields the pair of the amount capture and the stripped unit capture if
the stripped unit has at most nine characters, and nothing otherwise; and a
pattern that yields nothing hands over to the next pattern in priority
order. -/
theorem C6_unit_strip (p : RE) (ps : List RE) (html : List Char)
    (h2 : countGroups p = 2) :
    (∀ caps, reSearch p html = some caps →
      tryTextPattern p html =
        (if (stripChars (getGroup caps 2)).length < 10
         then some (getGroup caps 1, stripChars (getGroup caps 2))
         else none)) ∧
    (tryTextPattern p html = none → textLoop (p :: ps) html = textLoop ps html) := by
  constructor
  · intro caps hc
    unfold tryTextPattern
    rw [hc]
    simp [h2]
  · intro hn
    simp [textLoop, hn]

/-- Witness for C6: a twelve-letter unit is rejected and the loop moves on to
the following patterns. -/
theorem C6_witness :
    tryTextPattern patternA ("获得 5 abcdefghijkl".toList) = none ∧
    textLoop [patternA, patternB, patternC, patternD] ("获得 5 abcdefghijkl".toList) =
      textLoop [patternB, patternC, patternD] ("获得 5 abcdefghijkl".toList) := by
  have h1 : tryTextPattern patternA ("获得 5 abcdefghijkl".toList) = none := by decide
  exact ⟨h1, (C6_unit_strip patternA [patternB, patternC, patternD]
    ("获得 5 abcdefghijkl".toList) (by decide)).2 h1⟩

/-- C7: once the page GET came back 200 without an already-checked-in
indicator and the POST came back, the result is: success with a reward
extracted from the POST body when that body is a 200 carrying a success
indicator; the no-success-marker failure when it is a 200 without one; and the
status-code failure otherwise. In every case exactly the GET and the POST were
issued. -/
theorem C7_post_handling (net : Net) (rg rp : HttpResponse)
    (hget : net (Req.get checkin_url) = Except.ok rg)
    (hg200 : rg.status = 200)
    (hnotalready : bodyHas alreadyIndicators rg.text = false)
    (hpost : net checkinPostReq = Except.ok rp) :
    perform_checkin net =
      ((if rp.status == 200 then
          (if bodyHas success_indicators rp.text then
            (true, rewardMsgSuccess (extract_reward rp.text))
          else (false, "签到请求已发送，但响应中未找到成功标识。"))
        else (false, "签到 POST 请求失败，状态码: " ++ toString rp.status)),
       [Req.get checkin_url, checkinPostReq]) := by
  unfold perform_checkin
  rw [hget]
  simp only [hg200, hnotalready, hpost]
  cases h200 : (rp.status == 200) with
  | true =>
    cases hb : bodyHas success_indicators rp.text with
    | true => simp [h200, hb]
    | false => simp [h200, hb]
  | false => simp [h200]

/-- Witness for C7: a 200 POST body carrying a success indicator but no
extractable reward yields the success-with-extraction-failure message, after
both requests. -/
theorem C7_witness :
    perform_checkin (fun rq => match rq with
      | Req.get _ => Except.ok ⟨200, "", "page"⟩
      | Req.post _ _ => Except.ok ⟨200, "", "签到成功"⟩) =
      ((true, "签到成功！(未能从返回信息中提取具体奖励)"),
       [Req.get checkin_url, checkinPostReq]) :=
  (C7_post_handling _ ⟨200, "", "page"⟩ ⟨200, "", "签到成功"⟩ rfl rfl (by decide)
    rfl).trans (by decide)

/-- C8: a transport error on whichever authentication probe is reached (any
position in the URL list), or on the check-in GET, or on the check-in POST,
turns into a failure result for that account whose message carries the error
text; and for any network behaviour a run over non-blank entries still yields
one result per entry and a report titled with the full account count. -/
theorem C8_error_isolation (n : Net) (e cs name : String)
    (netA : Nat → Net) (cl : List String)
    (hparse : parse_cookie_string cs ≠ [])
    (hcl : cl ≠ []) (hne : ∀ c ∈ cl, c ≠ "") :
    (∀ us vs u, test_urls = us ++ u :: vs →
      (∀ v ∈ us, ∃ rv, n (Req.get v) = Except.ok rv ∧
        authSuccessCheck rv = false ∧ loginRedirectCheck rv = false) →
      n (Req.get u) = Except.error e →
      processAccount n cs name = ⟨name, false, "测试认证时发生网络错误: " ++ e⟩) ∧
    ((test_authentication n).1 = true →
      n (Req.get checkin_url) = Except.error e →
      processAccount n cs name = ⟨name, false, "签到过程中发生网络错误: " ++ e⟩) ∧
    (∀ rg, (test_authentication n).1 = true →
      n (Req.get checkin_url) = Except.ok rg →
      rg.status = 200 →
      bodyHas alreadyIndicators rg.text = false →
      n checkinPostReq = Except.error e →
      processAccount n cs name = ⟨name, false, "签到过程中发生网络错误: " ++ e⟩) ∧
    (run netA cl).length = cl.length ∧
    (generate_report (run netA cl)).1 =
      "LeafLow 签到报告 (" ++
        toString ((run netA cl).filter (fun r => r.success)).length ++ "/" ++
        toString cl.length ++ ")" := by
  have hne' : (parse_cookie_string cs).isEmpty = false := by
    cases hp : parse_cookie_string cs with
    | nil => exact absurd hp hparse
    | cons a t => rfl
  have hlen : (run netA cl).length = cl.length := by
    rw [run_nonempty netA cl hcl hne]
    simp
  refine ⟨?_, ?_, ?_, hlen, ?_⟩
  · intro us vs u hurls hreach herr
    have hauth : test_authentication n = (false, "测试认证时发生网络错误: " ++ e) := by
      rw [test_authentication, hurls]
      exact authLoop_error n us vs u e hreach herr
    simp [processAccount, hne', hauth]
  · intro hsucc herr2
    rcases htA : test_authentication n with ⟨b, m⟩
    rw [htA] at hsucc
    simp only at hsucc
    subst hsucc
    have hchk : perform_checkin n =
        ((false, "签到过程中发生网络错误: " ++ e), [Req.get checkin_url]) := by
      unfold perform_checkin
      rw [herr2]
    simp [processAccount, hne', htA, hchk]
  · intro rg hsucc hget hst hnal herr3
    rcases htA : test_authentication n with ⟨b, m⟩
    rw [htA] at hsucc
    simp only at hsucc
    subst hsucc
    have hchk : perform_checkin n =
        ((false, "签到过程中发生网络错误: " ++ e),
         [Req.get checkin_url, checkinPostReq]) := by
      unfold perform_checkin
      rw [hget]
      simp [hst, hnal, herr3]
    simp [processAccount, hne', htA, hchk]
  · simp [generate_report, hlen]

/-- Witness for C8: a network whose second probe raises while the first probe
returns an inconclusive response turns into a per-account authentication-error
failure result carrying the error text. -/
theorem C8_witness :
    processAccount
        (fun rq => if rq = Req.get (main_site ++ "/dashboard")
          then Except.ok ⟨200, "", "x"⟩ else Except.error "boom") "a=1" "账号1" =
      ⟨"账号1", false, "测试认证时发生网络错误: boom"⟩ :=
  (C8_error_isolation
    (fun rq => if rq = Req.get (main_site ++ "/dashboard")
      then Except.ok ⟨200, "", "x"⟩ else Except.error "boom")
    "boom" "a=1" "账号1" (fun _ _ => Except.error "boom") ["a=1"]
    (by decide) (by decide) (by decide)).1
    [main_site ++ "/dashboard"] [main_site ++ "/profile"] (main_site ++ "/user")
    (by decide)
    (by
      intro v hv
      simp only [List.mem_singleton] at hv
      subst hv
      exact ⟨⟨200, "", "x"⟩, rfl, by decide, by decide⟩)
    rfl

end LeafLow
